import Mathlib

/-
  Verification of the latex-bundle installer script (src/setup.py).

  The script is a straight-line pipeline: parse flags, load a JSON manifest,
  validate its keys, compute per-platform destination directories, create
  them, then iterate four file categories performing copy/symlink/remove
  operations.  We embed the script shallowly:

  * paths are strings with POSIX `os.path.join` semantics;
  * the filesystem is a finite association list from paths to entries
    (regular file with content, or symbolic link with target), plus the set
    of existing directories; `os.path.isfile` follows symlink chains (with
    fuel, so a cycle behaves like ELOOP: `isfile` is false);
  * `os.makedirs(p, exist_ok=True)` records `p` as an existing directory
    (intermediate ancestor directories are not tracked separately: no claim
    depends on them);
  * printed error/warning messages are collected in a log; `exit(1)` and an
    uncaught exception both yield exit code 1, normal termination yields 0;
  * `sys.platform`, the user's home directory and the result of the Windows
    admin check (`os.getuid() == 0` / `IsUserAnAdmin()`) are parameters;
  * the JSON manifest is an association list of keys to values; values are
    strings, lists of strings, or anything else (`jother`), which is enough
    to express every type check the script performs.
-/

namespace TexBundle

/-- POSIX os.path.isabs: the path begins with a slash. -/
def isabs (p : String) : Bool :=
  match p.data with
  | [] => false
  | c :: _ => c = '/'

/-- POSIX os.path.join for two components: an absolute second component
replaces the first. -/
def pathJoin (a b : String) : String := if isabs b then b else a ++ "/" ++ b

/-- os.path.join folded over several components. -/
def joinAll (a : String) (ps : List String) : String := ps.foldl pathJoin a

/-- resolve_full_path (source lines 123-126): resolve relative to ROOT. -/
def resolve_full_path (root p : String) : String :=
  if isabs p then p else pathJoin root p

/-- Characters of a path up to, excluding, the separator before its last
component: a character is kept while a slash still follows it. -/
def dropLastSeg : List Char → List Char
  | [] => []
  | c :: rest => if rest.contains '/' then c :: dropLastSeg rest else []

/-- Parent directory of a path: os.path.abspath(os.path.join(dest, os.pardir))
for an absolute normalized dest, that is the path with its last slash and
last component removed. -/
def parentDir (p : String) : String :=
  String.mk (dropLastSeg p.data)

/-- A filesystem entry: a regular file with its content, or a symbolic link
with its target path. -/
inductive Entry where
  | file (content : String)
  | link (target : String)
deriving DecidableEq, Repr

/-- Lookup in an association list of filesystem entries. -/
def lookupEntry : List (String × Entry) → String → Option Entry
  | [], _ => none
  | (k, v) :: rest, p => if k = p then some v else lookupEntry rest p

/-- Remove a key from an association list of filesystem entries. -/
def removeKey : List (String × Entry) → String → List (String × Entry)
  | [], _ => []
  | (k, v) :: rest, p =>
    if k = p then removeKey rest p else (k, v) :: removeKey rest p

/-- The filesystem: entries (files and symlinks) keyed by absolute path, and
the set of directories that exist. -/
structure FS where
  entries : List (String × Entry)
  dirs : List String
deriving DecidableEq, Repr

/-- Entry at a path (the path itself, links not followed: os.lstat view). -/
def FS.lookup (fs : FS) (p : String) : Option Entry := lookupEntry fs.entries p

/-- os.remove: delete the entry at the path (a symlink is removed, not its
target). -/
def FS.removeFile (fs : FS) (p : String) : FS :=
  FS.mk (removeKey fs.entries p) fs.dirs

/-- Write an entry at a path, replacing whatever entry was there. -/
def FS.writeEntry (fs : FS) (p : String) (e : Entry) : FS :=
  FS.mk ((p, e) :: removeKey fs.entries p) fs.dirs

/-- os.path.isdir. -/
def FS.isdir (fs : FS) (p : String) : Bool := fs.dirs.contains p

/-- os.makedirs(p, exist_ok=True): record p as an existing directory. -/
def FS.makedirs (fs : FS) (p : String) : FS :=
  if fs.dirs.contains p then fs else FS.mk fs.entries (fs.dirs ++ [p])

/-- Follow symbolic links from a path to the path they finally denote.  Fuel
bounds the chain; a chain longer than the fuel (in particular a cycle)
gives none, matching ELOOP. -/
def resolvePath (fs : FS) : Nat → String → Option String
  | 0, _ => none
  | fuel + 1, p =>
    match lookupEntry fs.entries p with
    | some (Entry.link t) => resolvePath fs fuel t
    | _ => some p

/-- os.path.isfile: true iff the path, after following symlinks, names a
regular file.  False on a dangling symlink and on a link cycle. -/
def FS.isfile (fs : FS) (p : String) : Bool :=
  match resolvePath fs (fs.entries.length + 1) p with
  | some q =>
    match lookupEntry fs.entries q with
    | some (Entry.file _) => true
    | _ => false
  | none => false

/-- Read a file's content through symlinks. -/
def FS.readFile (fs : FS) (p : String) : Option String :=
  match resolvePath fs (fs.entries.length + 1) p with
  | some q =>
    match lookupEntry fs.entries q with
    | some (Entry.file c) => some c
    | _ => none
  | none => none

/-- install_file in symlink mode (source lines 301-306): delete the
destination if os.path.isfile holds of it, then os.symlink, which fails
with FileExistsError if any entry (for instance a dangling symlink) is
still present at the destination. -/
def install_file_symlink (root : String) (fs : FS) (from_file to_file : String) :
    Except String FS :=
  let f := resolve_full_path root from_file
  let t := resolve_full_path root to_file
  let fs1 := if fs.isfile t then fs.removeFile t else fs
  match lookupEntry fs1.entries t with
  | some _ => Except.error "FileExistsError"
  | none => Except.ok (fs1.writeEntry t (Entry.link f))

/-- install_file in copy mode (source lines 312-317): delete the destination
if os.path.isfile holds of it, then shutil.copy2, which reads the source
through symlinks and writes the destination through symlinks. -/
def install_file_copy (root : String) (fs : FS) (from_file to_file : String) :
    Except String FS :=
  let f := resolve_full_path root from_file
  let t := resolve_full_path root to_file
  let fs1 := if fs.isfile t then fs.removeFile t else fs
  match fs1.readFile f with
  | none => Except.error "FileNotFoundError"
  | some c =>
    match resolvePath fs1 (fs1.entries.length + 1) t with
    | none => Except.error "ELOOP"
    | some q => Except.ok (fs1.writeEntry q (Entry.file c))

/-- The install_file selected by the method flag (source lines 290-317). -/
def install_file (symlinkMode : Bool) (root : String) (fs : FS)
    (from_file to_file : String) : Except String FS :=
  if symlinkMode then install_file_symlink root fs from_file to_file
  else install_file_copy root fs from_file to_file

/-- A JSON value as far as the script inspects one: a string, a list of
names, or anything else. -/
inductive JVal where
  | jstr (s : String)
  | jlist (xs : List String)
  | jother
deriving DecidableEq, Repr

/-- Key lookup in the parsed JSON object. -/
def findKey : List (String × JVal) → String → Option JVal
  | [], _ => none
  | (k, v) :: rest, key => if k = key then some v else findKey rest key

/-- The value_type argument of get_value: str or list. -/
inductive VType where
  | tstr
  | tlist
deriving DecidableEq, Repr

/-- isinstance check performed by get_value. -/
def typeMatches : JVal → VType → Bool
  | JVal.jstr _, VType.tstr => true
  | JVal.jlist _, VType.tlist => true
  | _, _ => false

/-- Python type name of an expected type, for the error message. -/
def vtypeName : VType → String
  | VType.tstr => "str"
  | VType.tlist => "list"

/-- Python type name of a found value, for the error message (values the
script never inspects further are collapsed to one name). -/
def jvalName : JVal → String
  | JVal.jstr _ => "str"
  | JVal.jlist _ => "list"
  | JVal.jother => "other"

/-- get_value (source lines 157-181): a missing required key aborts, a
missing optional key yields the default, and a present value of the wrong
type aborts whether or not the key was required. -/
def get_value (mapping : List (String × JVal)) (key : String)
    (value_type : VType) (required : Bool) (dflt : JVal) : Except String JVal :=
  match findKey mapping key with
  | none =>
    if required then Except.error ("Missing required key: '" ++ key ++ "'")
    else Except.ok dflt
  | some result =>
    if typeMatches result value_type then Except.ok result
    else
      Except.error
        ("Expected '" ++ key ++ "' to be of type '" ++ vtypeName value_type
          ++ "' but got '" ++ jvalName result ++ "'")

/-- String payload of a JSON value (callers use it only after get_value has
checked the type). -/
def asStr : JVal → String
  | JVal.jstr s => s
  | _ => ""

/-- List payload of a JSON value. -/
def asList : JVal → List String
  | JVal.jlist xs => xs
  | _ => []

/-- Program state: the filesystem and the log of error and warning lines the
script has printed. -/
structure St where
  fs : FS
  log : List String
deriving DecidableEq, Repr

/-- The configuration after the manifest stage: the values of lines 185-246
of the source.  res_source_dir and cwl_source_dir are None when missing. -/
structure Manifest where
  bundle_name : String
  sty_list : List String
  cls_list : List String
  res_list : List String
  sty_source_dir : String
  cls_source_dir : String
  res_source_dir : Option String
  cwl_source_dir : Option String
deriving DecidableEq, Repr

/-- The warning printed when the resource directory is missing (source line
234). -/
def resWarning : String := "[!] Resource directory not found, ignoring all resources"

/-- The manifest stage (source lines 185-246), in source order: read and
type-check each key, abort (error state) on a missing required key, a type
mismatch, or a missing sty-dir with a non-empty sty list; a missing cls-dir
with a non-empty cls list only logs the error message and continues (the
source has no exit(1) there); a missing res-dir or cwl-dir degrades the
category, with a warning only in the res case with a non-empty res list. -/
def stageA (config : List (String × JVal)) (root : String) (fs : FS)
    (log : List String) : Except (List String) (Manifest × List String) :=
  match get_value config "name" VType.tstr true JVal.jother with
  | Except.error e => Except.error (log ++ [e])
  | Except.ok vname =>
  match get_value config "sty" VType.tlist false (JVal.jlist []) with
  | Except.error e => Except.error (log ++ [e])
  | Except.ok vsty =>
  match get_value config "cls" VType.tlist false (JVal.jlist []) with
  | Except.error e => Except.error (log ++ [e])
  | Except.ok vcls =>
  match get_value config "res" VType.tlist false (JVal.jlist []) with
  | Except.error e => Except.error (log ++ [e])
  | Except.ok vres =>
  match get_value config "sty-dir" VType.tstr false (JVal.jstr (pathJoin root "texmf")) with
  | Except.error e => Except.error (log ++ [e])
  | Except.ok vstydir =>
  if 0 < (asList vsty).length ∧ fs.isdir (asStr vstydir) = false then
    Except.error (log ++ ["Must be a directory: " ++ asStr vstydir])
  else
  match get_value config "cls-dir" VType.tstr false (JVal.jstr (pathJoin root "texmf")) with
  | Except.error e => Except.error (log ++ [e])
  | Except.ok vclsdir =>
  let log1 :=
    if 0 < (asList vcls).length ∧ fs.isdir (asStr vclsdir) = false then
      log ++ ["Must be a directory: " ++ asStr vclsdir]
    else log
  match get_value config "res-dir" VType.tstr false (JVal.jstr (pathJoin root "resources")) with
  | Except.error e => Except.error (log1 ++ [e])
  | Except.ok vresdir =>
  let resdir : Option String :=
    if fs.isdir (asStr vresdir) = false then none else some (asStr vresdir)
  let reslist : List String :=
    if fs.isdir (asStr vresdir) = false then [] else asList vres
  let log2 :=
    if fs.isdir (asStr vresdir) = false ∧ asList vres ≠ [] then
      log1 ++ [resWarning]
    else log1
  match get_value config "cwl-dir" VType.tstr false (JVal.jstr (pathJoin root "autocompletion")) with
  | Except.error e => Except.error (log2 ++ [e])
  | Except.ok vcwldir =>
  let cwldir : Option String :=
    if fs.isdir (asStr vcwldir) = false then none else some (asStr vcwldir)
  Except.ok
    (Manifest.mk (asStr vname) (asList vsty) (asList vcls) reslist
      (asStr vstydir) (asStr vclsdir) resdir cwldir,
     log2)

/-- Destination directories by platform (source lines 261-280): none models
the unknown-platform fatal error. -/
def target_dirs (platform user_home bundle_name : String) :
    Option (String × String) :=
  if platform = "linux" ∨ platform = "linux2" then
    some (joinAll user_home ["texmf", "tex", "latex", bundle_name],
          joinAll user_home [".config", "texstudio", "completion", "user"])
  else if platform = "windows" then
    some (joinAll user_home ["AppData", "Roaming", "MiKTeX", "latex", bundle_name],
          joinAll user_home ["AppData", "Roaming", "texstudio", "completion", "user"])
  else if platform = "darwin" then
    some (joinAll user_home ["Library", "texmf", "tex", "latex", bundle_name],
          joinAll user_home [".config", "texstudio", "completion", "user"])
  else none

/-- The command-line flags the pipeline reads. -/
structure Args where
  install : Bool
  uninstall : Bool
  symlink : Bool
deriving DecidableEq, Repr

/-- Source and destination path of an entry (source lines 341-345): join the
directory with name+suffix, then resolve against ROOT. -/
def entryPath (root dir suffix name : String) : String :=
  resolve_full_path root (pathJoin dir (name ++ suffix))

/-- The loop body of iter_files (source lines 340-362).  An error carries
the filesystem at the uncaught exception. -/
def processEntry (args : Args) (root from_dir to_dir suffix : String)
    (fs : FS) (name : String) : Except FS FS :=
  let source := entryPath root from_dir suffix name
  let dest := entryPath root to_dir suffix name
  let parent_dir := parentDir dest
  if args.install then
    if fs.isfile source = false then Except.ok fs
    else
      let fs1 := fs.makedirs parent_dir
      match install_file args.symlink root fs1 source dest with
      | Except.error _ => Except.error fs1
      | Except.ok fs2 => Except.ok fs2
  else if args.uninstall then
    if fs.isfile dest = false then Except.ok fs
    else Except.ok (fs.removeFile dest)
  else Except.ok fs

/-- The loop of iter_files over the name list. -/
def iterLoop (args : Args) (root from_dir to_dir suffix : String) :
    List String → FS → Except FS FS
  | [], fs => Except.ok fs
  | name :: rest, fs =>
    match processEntry args root from_dir to_dir suffix fs name with
    | Except.error fsE => Except.error fsE
    | Except.ok fs1 => iterLoop args root from_dir to_dir suffix rest fs1

/-- iter_files (source lines 325-362): do nothing when the source directory
is None or the list is empty, else run the loop. -/
def iter_files (args : Args) (root : String) (files : List String)
    (from_dir : Option String) (to_dir suffix : String) (fs : FS) :
    Except FS FS :=
  match from_dir with
  | none => Except.ok fs
  | some d =>
    if files.length = 0 then Except.ok fs
    else iterLoop args root d to_dir suffix files fs

/-- The four category invocations (source lines 370-400), in order: sty,
cls, res, then completion files over the concatenated sty and cls lists. -/
def iterAll (args : Args) (root : String) (m : Manifest)
    (texmf_dir texstudio_dir : String) (fs : FS) : Except FS FS :=
  match iter_files args root m.sty_list (some m.sty_source_dir) texmf_dir ".sty" fs with
  | Except.error fsE => Except.error fsE
  | Except.ok fs1 =>
  match iter_files args root m.cls_list (some m.cls_source_dir) texmf_dir ".cls" fs1 with
  | Except.error fsE => Except.error fsE
  | Except.ok fs2 =>
  match iter_files args root m.res_list m.res_source_dir texmf_dir "" fs2 with
  | Except.error fsE => Except.error fsE
  | Except.ok fs3 =>
  iter_files args root (m.sty_list ++ m.cls_list) m.cwl_source_dir texstudio_dir ".cwl" fs3

/-- Outcome of a run: the process exit code and the final state. -/
structure RunResult where
  exitCode : Nat
  st : St
deriving DecidableEq, Repr

/-- The whole pipeline after argument parsing (source lines 112-400):
flag guard, manifest stage, platform dispatch, creation of the two
destination directories, the Windows symlink admin check (is_admin is the
result of the os.getuid / IsUserAnAdmin probe), and the four category
iterations.  exit(1) and an uncaught exception give exit code 1. -/
def runScript (args : Args) (config : List (String × JVal)) (root : String)
    (platform user_home : String) (is_admin : Bool) (st0 : St) : RunResult :=
  if (args.install || args.uninstall) = false then
    RunResult.mk 1 (St.mk st0.fs (st0.log ++ ["Please specify either --install or --uninstall"]))
  else
    match stageA config root st0.fs st0.log with
    | Except.error logE => RunResult.mk 1 (St.mk st0.fs logE)
    | Except.ok (m, log1) =>
      match target_dirs platform user_home m.bundle_name with
      | none => RunResult.mk 1 (St.mk st0.fs (log1 ++ ["Unknown platform:" ++ platform]))
      | some (texmf_dir, texstudio_dir) =>
        let fs2 := (st0.fs.makedirs texmf_dir).makedirs texstudio_dir
        if args.symlink && (platform == "windows") && !is_admin then
          RunResult.mk 1
            (St.mk fs2 (log1 ++ ["Admin privileges are required to create symlinks on windows."]))
        else
          match iterAll args root m texmf_dir texstudio_dir fs2 with
          | Except.error fsE => RunResult.mk 1 (St.mk fsE log1)
          | Except.ok fs3 => RunResult.mk 0 (St.mk fs3 log1)

/-- A manifest object with the four content keys, as a helper for concrete
configurations: name, sty, cls, res, and no directory overrides. -/
def mkCfg (name : String) (sty cls res : List String) : List (String × JVal) :=
  [("name", JVal.jstr name), ("sty", JVal.jlist sty),
   ("cls", JVal.jlist cls), ("res", JVal.jlist res)]

/-- Entries without any symbolic link: over such a filesystem, path
resolution is the identity. -/
def entriesNoLinks : List (String × Entry) → Bool
  | [] => true
  | (_, Entry.link _) :: _ => false
  | (_, Entry.file _) :: rest => entriesNoLinks rest

/-- A filesystem holding only regular files. -/
def FS.noLinks (fs : FS) : Bool := entriesNoLinks fs.entries

/-- The entry at the path itself is a regular file (os.lstat view). -/
def FS.fileAt (fs : FS) (p : String) : Bool :=
  match lookupEntry fs.entries p with
  | some (Entry.file _) => true
  | _ => false

/-- Destination paths of one category invocation: empty when the source
directory is None, else the entry path of every listed name. -/
def catDests (root to_dir suffix : String) (from_dir : Option String)
    (files : List String) : List String :=
  match from_dir with
  | none => []
  | some _ => files.map (entryPath root to_dir suffix)

/-- All destination paths the four category invocations can touch. -/
def allDests (root : String) (m : Manifest) (texmf_dir texstudio_dir : String) :
    List String :=
  catDests root texmf_dir ".sty" (some m.sty_source_dir) m.sty_list ++
  catDests root texmf_dir ".cls" (some m.cls_source_dir) m.cls_list ++
  catDests root texmf_dir "" m.res_source_dir m.res_list ++
  catDests root texstudio_dir ".cwl" m.cwl_source_dir (m.sty_list ++ m.cls_list)

/-- No entry of the category maps a source path onto its own destination
path (copying a file onto itself crashes shutil.copy2, because the
destination, which is the source, is deleted first). -/
def noSelfCopy (root from_dir to_dir suffix : String) (files : List String) : Prop :=
  ∀ n ∈ files, entryPath root from_dir suffix n ≠ entryPath root to_dir suffix n

instance (root from_dir to_dir suffix : String) (files : List String) :
    Decidable (noSelfCopy root from_dir to_dir suffix files) := by
  unfold noSelfCopy
  infer_instance

theorem lookup_removeKey (l : List (String × Entry)) (p q : String) :
    lookupEntry (removeKey l p) q = if q = p then none else lookupEntry l q := by
  induction l with
  | nil => simp [removeKey, lookupEntry]
  | cons hd tl ih =>
    obtain ⟨k, v⟩ := hd
    rw [removeKey]
    by_cases hkp : k = p
    · rw [if_pos hkp, ih, lookupEntry]
      by_cases hqp : q = p
      · rw [if_pos hqp, if_pos hqp]
      · rw [if_neg hqp, if_neg hqp, if_neg (fun h : k = q => hqp (h ▸ hkp))]
    · rw [if_neg hkp, lookupEntry, lookupEntry]
      by_cases hkq : k = q
      · have hqp : ¬q = p := fun h => hkp (hkq.trans h)
        rw [if_pos hkq, if_neg hqp, if_pos hkq]
      · rw [if_neg hkq, ih]
        by_cases hqp : q = p
        · rw [if_pos hqp, if_pos hqp]
        · rw [if_neg hqp, if_neg hqp, if_neg hkq]

theorem lookup_writeEntry (fs : FS) (p : String) (e : Entry) (q : String) :
    lookupEntry (fs.writeEntry p e).entries q =
      if q = p then some e else lookupEntry fs.entries q := by
  unfold FS.writeEntry
  by_cases hqp : q = p
  · simp [lookupEntry, hqp]
  · simp only [lookupEntry]
    rw [if_neg (fun h => hqp h.symm), lookup_removeKey, if_neg hqp, if_neg hqp]

theorem removeFile_entries (fs : FS) (p : String) :
    (fs.removeFile p).entries = removeKey fs.entries p := rfl

theorem removeFile_dirs (fs : FS) (p : String) : (fs.removeFile p).dirs = fs.dirs := rfl

theorem writeEntry_dirs (fs : FS) (p : String) (e : Entry) :
    (fs.writeEntry p e).dirs = fs.dirs := rfl

theorem makedirs_entries (fs : FS) (p : String) : (fs.makedirs p).entries = fs.entries := by
  unfold FS.makedirs
  split <;> rfl

theorem noLinks_lookup {l : List (String × Entry)} (h : entriesNoLinks l = true)
    (p : String) :
    lookupEntry l p = none ∨ ∃ c, lookupEntry l p = some (Entry.file c) := by
  induction l with
  | nil => exact Or.inl rfl
  | cons hd tl ih =>
    obtain ⟨k, v⟩ := hd
    cases v with
    | link t => simp [entriesNoLinks] at h
    | file c =>
      rw [entriesNoLinks] at h
      by_cases hk : k = p
      · exact Or.inr ⟨c, by simp [lookupEntry, hk]⟩
      · simpa [lookupEntry, hk] using ih h

theorem entriesNoLinks_removeKey {l : List (String × Entry)}
    (h : entriesNoLinks l = true) (p : String) :
    entriesNoLinks (removeKey l p) = true := by
  induction l with
  | nil => exact h
  | cons hd tl ih =>
    obtain ⟨k, v⟩ := hd
    cases v with
    | link t => simp [entriesNoLinks] at h
    | file c =>
      rw [entriesNoLinks] at h
      rw [removeKey]
      by_cases hk : k = p
      · rw [if_pos hk]; exact ih h
      · rw [if_neg hk, entriesNoLinks]; exact ih h

theorem noLinks_removeFile {fs : FS} (h : fs.noLinks = true) (p : String) :
    (fs.removeFile p).noLinks = true :=
  entriesNoLinks_removeKey h p

theorem noLinks_writeFile {fs : FS} (h : fs.noLinks = true) (p : String) (c : String) :
    (fs.writeEntry p (Entry.file c)).noLinks = true := by
  show entriesNoLinks ((p, Entry.file c) :: removeKey fs.entries p) = true
  rw [entriesNoLinks]
  exact entriesNoLinks_removeKey h p

theorem noLinks_makedirs {fs : FS} (h : fs.noLinks = true) (p : String) :
    (fs.makedirs p).noLinks = true := by
  unfold FS.noLinks
  rw [makedirs_entries]
  exact h

theorem resolvePath_noLinks {fs : FS} (h : fs.noLinks = true) (fuel : Nat) (p : String) :
    resolvePath fs (fuel + 1) p = some p := by
  rw [resolvePath]
  rcases noLinks_lookup h p with h1 | ⟨c, h1⟩ <;> rw [h1]

theorem isfile_noLinks {fs : FS} (h : fs.noLinks = true) (p : String) :
    fs.isfile p = fs.fileAt p := by
  unfold FS.isfile
  rw [resolvePath_noLinks h]
  rfl

theorem fileAt_iff {fs : FS} (p : String) :
    fs.fileAt p = true ↔ ∃ c, lookupEntry fs.entries p = some (Entry.file c) := by
  unfold FS.fileAt
  constructor
  · intro h
    rcases h1 : lookupEntry fs.entries p with _ | e
    · rw [h1] at h; simp at h
    · cases e with
      | file c => exact ⟨c, rfl⟩
      | link t => rw [h1] at h; simp at h
  · rintro ⟨c, hc⟩
    rw [hc]

theorem fileAt_false {fs : FS} (hnl : fs.noLinks = true) {p : String}
    (h : fs.fileAt p = false) : lookupEntry fs.entries p = none := by
  rcases noLinks_lookup hnl p with h1 | ⟨c, h1⟩
  · exact h1
  · exfalso
    have : fs.fileAt p = true := (fileAt_iff p).mpr ⟨c, h1⟩
    rw [this] at h
    exact Bool.true_eq_false.mp h

theorem readFile_noLinks {fs : FS} (h : fs.noLinks = true) {p c : String}
    (hc : lookupEntry fs.entries p = some (Entry.file c)) :
    fs.readFile p = some c := by
  unfold FS.readFile
  rw [resolvePath_noLinks h]
  simp [hc]

theorem isabs_append {a : String} (b : String) (h : isabs a = true) :
    isabs (a ++ b) = true := by
  unfold isabs at h ⊢
  rw [String.data_append]
  cases hd : a.data with
  | nil => rw [hd] at h; simp at h
  | cons c rest => rw [hd] at h; simpa using h

theorem isabs_resolve {root : String} (h : isabs root = true) (p : String) :
    isabs (resolve_full_path root p) = true := by
  unfold resolve_full_path pathJoin
  by_cases hp : isabs p = true
  · rw [if_pos hp]
    exact hp
  · rw [if_neg hp, if_neg hp]
    exact isabs_append _ (isabs_append _ h)

theorem resolve_abs {p : String} (h : isabs p = true) (root : String) :
    resolve_full_path root p = p := by
  unfold resolve_full_path
  rw [if_pos h]

theorem isabs_entryPath {root : String} (h : isabs root = true)
    (d sfx n : String) : isabs (entryPath root d sfx n) = true :=
  isabs_resolve h _

theorem resolve_entryPath {root : String} (h : isabs root = true)
    (d sfx n : String) :
    resolve_full_path root (entryPath root d sfx n) = entryPath root d sfx n :=
  resolve_abs (isabs_entryPath h d sfx n) root

theorem processEntry_uninstall (s : Bool) (root d t sfx : String) (fs : FS)
    (n : String) :
    processEntry (Args.mk false true s) root d t sfx fs n =
      Except.ok (if fs.isfile (entryPath root t sfx n) = true then
          fs.removeFile (entryPath root t sfx n) else fs) := by
  unfold processEntry
  cases hf : fs.isfile (entryPath root t sfx n) <;> simp [hf]

theorem install_file_copy_noLinks (root : String) {fs : FS} {f t c : String}
    (hnl : fs.noLinks = true) (hf : isabs f = true) (ht : isabs t = true)
    (hc : lookupEntry fs.entries f = some (Entry.file c)) (hne : f ≠ t) :
    install_file false root fs f t = Except.ok
      ((if fs.isfile t = true then fs.removeFile t else fs).writeEntry t (Entry.file c)) := by
  have hrf : resolve_full_path root f = f := resolve_abs hf root
  have hrt : resolve_full_path root t = t := resolve_abs ht root
  unfold install_file install_file_copy
  rw [if_neg Bool.false_ne_true]
  simp only [hrf, hrt]
  by_cases hg : fs.isfile t = true
  · simp only [if_pos hg]
    have hGnl : (fs.removeFile t).noLinks = true := noLinks_removeFile hnl t
    have hcG : lookupEntry (fs.removeFile t).entries f = some (Entry.file c) := by
      rw [removeFile_entries, lookup_removeKey, if_neg hne, hc]
    rw [readFile_noLinks hGnl hcG, resolvePath_noLinks hGnl]
  · simp only [if_neg hg]
    rw [readFile_noLinks hnl hc, resolvePath_noLinks hnl]

theorem processEntry_install_copy (u : Bool) {root : String}
    (habs : isabs root = true) (d t sfx : String) {fs : FS}
    (hnl : fs.noLinks = true) (n : String)
    (hne : entryPath root d sfx n ≠ entryPath root t sfx n) :
    ∃ fs1, processEntry (Args.mk true u false) root d t sfx fs n = Except.ok fs1 ∧
      fs1.noLinks = true ∧
      ∀ q, q ≠ entryPath root t sfx n →
        lookupEntry fs1.entries q = lookupEntry fs.entries q := by
  by_cases hsf : fs.isfile (entryPath root d sfx n) = true
  case neg =>
    refine ⟨fs, ?_, hnl, fun q _ => rfl⟩
    unfold processEntry
    rw [Bool.not_eq_true] at hsf
    simp [hsf]
  case pos =>
    have hfile : ∃ c, lookupEntry fs.entries (entryPath root d sfx n) =
        some (Entry.file c) := by
      rw [isfile_noLinks hnl] at hsf
      exact (fileAt_iff _).mp hsf
    obtain ⟨c, hc⟩ := hfile
    have hMent : (fs.makedirs (parentDir (entryPath root t sfx n))).entries = fs.entries :=
      makedirs_entries fs _
    have hMnl : (fs.makedirs (parentDir (entryPath root t sfx n))).noLinks = true :=
      noLinks_makedirs hnl _
    have hcM : lookupEntry (fs.makedirs (parentDir (entryPath root t sfx n))).entries
        (entryPath root d sfx n) = some (Entry.file c) := by rw [hMent, hc]
    have hinst := install_file_copy_noLinks root hMnl (isabs_entryPath habs d sfx n)
      (isabs_entryPath habs t sfx n) hcM hne
    refine ⟨((if (fs.makedirs (parentDir (entryPath root t sfx n))).isfile
          (entryPath root t sfx n) = true
        then (fs.makedirs (parentDir (entryPath root t sfx n))).removeFile
          (entryPath root t sfx n)
        else fs.makedirs (parentDir (entryPath root t sfx n))).writeEntry
        (entryPath root t sfx n) (Entry.file c)), ?_, ?_, ?_⟩
    · unfold processEntry
      simp [hsf, hinst]
    · split
      · exact noLinks_writeFile (noLinks_removeFile hMnl _) _ c
      · exact noLinks_writeFile hMnl _ c
    · intro q hq
      rw [lookup_writeEntry, if_neg hq]
      split
      · rw [removeFile_entries, lookup_removeKey, if_neg hq, hMent]
      · rw [hMent]

theorem iterLoop_install_copy (u : Bool) {root : String}
    (habs : isabs root = true) (d t sfx : String) :
    ∀ (files : List String) {fs : FS}, fs.noLinks = true →
    noSelfCopy root d t sfx files →
    ∃ fs1, iterLoop (Args.mk true u false) root d t sfx files fs = Except.ok fs1 ∧
      fs1.noLinks = true ∧
      ∀ q, q ∉ files.map (entryPath root t sfx) →
        lookupEntry fs1.entries q = lookupEntry fs.entries q := by
  intro files
  induction files with
  | nil =>
    intro fs hnl _
    exact ⟨fs, rfl, hnl, fun q _ => rfl⟩
  | cons n rest ih =>
    intro fs hnl hsc
    obtain ⟨fsh, hh, hhnl, hhframe⟩ :=
      processEntry_install_copy u habs d t sfx hnl n (hsc n (by simp))
    obtain ⟨fs1, h1, h1nl, h1frame⟩ :=
      ih hhnl (fun x hx => hsc x (by simp [hx]))
    refine ⟨fs1, ?_, h1nl, ?_⟩
    · simp only [iterLoop]
      rw [hh]
      exact h1
    · intro q hq
      have hq1 : q ∉ rest.map (entryPath root t sfx) := by
        intro hmem
        exact hq (by simp [hmem])
      have hqn : q ≠ entryPath root t sfx n := by
        intro he
        exact hq (by simp [he])
      rw [h1frame q hq1, hhframe q hqn]

theorem iterLoop_uninstall (s : Bool) (root d t sfx : String) :
    ∀ (files : List String) (fs : FS),
    ∃ fs1, iterLoop (Args.mk false true s) root d t sfx files fs = Except.ok fs1 ∧
      fs1.dirs = fs.dirs ∧
      (∀ q, lookupEntry fs1.entries q = lookupEntry fs.entries q ∨
            lookupEntry fs1.entries q = none) ∧
      (∀ q, q ∉ files.map (entryPath root t sfx) →
        lookupEntry fs1.entries q = lookupEntry fs.entries q) ∧
      (fs.noLinks = true → fs1.noLinks = true ∧
        ∀ q ∈ files.map (entryPath root t sfx), lookupEntry fs1.entries q = none) := by
  intro files
  induction files with
  | nil =>
    intro fs
    exact ⟨fs, rfl, rfl, fun q => Or.inl rfl, fun q _ => rfl, fun h => ⟨h, by simp⟩⟩
  | cons n rest ih =>
    intro fs
    obtain ⟨fs1, h1, h1dirs, h1add, h1frame, h1clear⟩ :=
      ih (if fs.isfile (entryPath root t sfx n) = true then
          fs.removeFile (entryPath root t sfx n) else fs)
    have hhlook : ∀ q, lookupEntry
        (if fs.isfile (entryPath root t sfx n) = true then
          fs.removeFile (entryPath root t sfx n) else fs).entries q =
        (if q = entryPath root t sfx n ∧ fs.isfile (entryPath root t sfx n) = true
          then none else lookupEntry fs.entries q) := by
      intro q
      by_cases hf : fs.isfile (entryPath root t sfx n) = true
      · rw [if_pos hf, removeFile_entries, lookup_removeKey]
        by_cases hq : q = entryPath root t sfx n
        · rw [if_pos hq, if_pos ⟨hq, hf⟩]
        · rw [if_neg hq, if_neg (fun h => hq h.1)]
      · rw [if_neg hf, if_neg (fun h => hf h.2)]
    refine ⟨fs1, ?_, ?_, ?_, ?_, ?_⟩
    · simp only [iterLoop]
      rw [processEntry_uninstall]
      exact h1
    · rw [h1dirs]
      split
      · rw [removeFile_dirs]
      · rfl
    · intro q
      rcases h1add q with h | h
      · rw [h, hhlook q]
        split
        · exact Or.inr rfl
        · exact Or.inl rfl
      · exact Or.inr h
    · intro q hq
      have hq1 : q ∉ rest.map (entryPath root t sfx) := by
        intro hmem
        exact hq (by simp [hmem])
      have hqn : q ≠ entryPath root t sfx n := by
        intro he
        exact hq (by simp [he])
      rw [h1frame q hq1, hhlook q, if_neg (fun h => hqn h.1)]
    · intro hnl
      have hhnl : (if fs.isfile (entryPath root t sfx n) = true then
          fs.removeFile (entryPath root t sfx n) else fs).noLinks = true := by
        split
        · exact noLinks_removeFile hnl _
        · exact hnl
      obtain ⟨h1nl, h1cl⟩ := h1clear hhnl
      refine ⟨h1nl, ?_⟩
      intro q hq
      rcases (by simpa using hq :
          q = entryPath root t sfx n ∨ ∃ a ∈ rest, entryPath root t sfx a = q) with
        hq0 | ⟨a, ha, haq⟩
      · have hnone : lookupEntry (if fs.isfile (entryPath root t sfx n) = true then
            fs.removeFile (entryPath root t sfx n) else fs).entries q = none := by
          rw [hhlook q]
          by_cases hf : fs.isfile (entryPath root t sfx n) = true
          · rw [if_pos ⟨hq0, hf⟩]
          · rw [if_neg (fun h => hf h.2)]
            rw [hq0]
            apply fileAt_false hnl
            rw [← isfile_noLinks hnl]
            exact Bool.not_eq_true _ ▸ (Bool.eq_false_iff.mpr hf)
        rcases h1add q with h | h
        · rw [h, hnone]
        · exact h
      · exact h1cl q (List.mem_map.mpr ⟨a, ha, haq⟩)

theorem iter_files_install_copy (u : Bool) {root : String}
    (habs : isabs root = true) (files : List String) (from_dir : Option String)
    (to_dir suffix : String) {fs : FS} (hnl : fs.noLinks = true)
    (hsc : ∀ dd, from_dir = some dd → noSelfCopy root dd to_dir suffix files) :
    ∃ fs1, iter_files (Args.mk true u false) root files from_dir to_dir suffix fs =
        Except.ok fs1 ∧
      fs1.noLinks = true ∧
      ∀ q, q ∉ catDests root to_dir suffix from_dir files →
        lookupEntry fs1.entries q = lookupEntry fs.entries q := by
  cases from_dir with
  | none => exact ⟨fs, rfl, hnl, fun q _ => rfl⟩
  | some dd =>
    by_cases hlen : files.length = 0
    · rw [List.length_eq_zero] at hlen
      subst hlen
      exact ⟨fs, rfl, hnl, fun q _ => rfl⟩
    · obtain ⟨fs1, h1, h1nl, h1frame⟩ :=
        iterLoop_install_copy u habs dd to_dir suffix files hnl (hsc dd rfl)
      refine ⟨fs1, ?_, h1nl, fun q hq => h1frame q hq⟩
      simp only [iter_files]
      rw [if_neg hlen]
      exact h1

theorem iter_files_uninstall (s : Bool) (root : String) (files : List String)
    (from_dir : Option String) (to_dir suffix : String) (fs : FS) :
    ∃ fs1, iter_files (Args.mk false true s) root files from_dir to_dir suffix fs =
        Except.ok fs1 ∧
      fs1.dirs = fs.dirs ∧
      (∀ q, lookupEntry fs1.entries q = lookupEntry fs.entries q ∨
            lookupEntry fs1.entries q = none) ∧
      (∀ q, q ∉ catDests root to_dir suffix from_dir files →
        lookupEntry fs1.entries q = lookupEntry fs.entries q) ∧
      (fs.noLinks = true → fs1.noLinks = true ∧
        ∀ q ∈ catDests root to_dir suffix from_dir files,
          lookupEntry fs1.entries q = none) := by
  cases from_dir with
  | none =>
    exact ⟨fs, rfl, rfl, fun q => Or.inl rfl, fun q _ => rfl,
      fun h => ⟨h, by simp [catDests]⟩⟩
  | some dd =>
    by_cases hlen : files.length = 0
    · rw [List.length_eq_zero] at hlen
      subst hlen
      exact ⟨fs, rfl, rfl, fun q => Or.inl rfl, fun q _ => rfl,
        fun h => ⟨h, by simp [catDests]⟩⟩
    · obtain ⟨fs1, h1, h1dirs, h1add, h1frame, h1clear⟩ :=
        iterLoop_uninstall s root dd to_dir suffix files fs
      refine ⟨fs1, ?_, h1dirs, h1add, fun q hq => h1frame q hq, h1clear⟩
      simp only [iter_files]
      rw [if_neg hlen]
      exact h1

theorem iterAll_install_copy (u : Bool) {root : String}
    (habs : isabs root = true) (m : Manifest) (texmf_dir texstudio_dir : String)
    {fs : FS} (hnl : fs.noLinks = true)
    (h1 : noSelfCopy root m.sty_source_dir texmf_dir ".sty" m.sty_list)
    (h2 : noSelfCopy root m.cls_source_dir texmf_dir ".cls" m.cls_list)
    (h3 : ∀ dd, m.res_source_dir = some dd → noSelfCopy root dd texmf_dir "" m.res_list)
    (h4 : ∀ dd, m.cwl_source_dir = some dd →
      noSelfCopy root dd texstudio_dir ".cwl" (m.sty_list ++ m.cls_list)) :
    ∃ fs1, iterAll (Args.mk true u false) root m texmf_dir texstudio_dir fs =
        Except.ok fs1 ∧
      fs1.noLinks = true ∧
      ∀ q, q ∉ allDests root m texmf_dir texstudio_dir →
        lookupEntry fs1.entries q = lookupEntry fs.entries q := by
  obtain ⟨g1, e1, nl1, fr1⟩ := iter_files_install_copy u habs m.sty_list
    (some m.sty_source_dir) texmf_dir ".sty" hnl (fun dd hd => by
      cases hd
      exact h1)
  obtain ⟨g2, e2, nl2, fr2⟩ := iter_files_install_copy u habs m.cls_list
    (some m.cls_source_dir) texmf_dir ".cls" nl1 (fun dd hd => by
      cases hd
      exact h2)
  obtain ⟨g3, e3, nl3, fr3⟩ := iter_files_install_copy u habs m.res_list
    m.res_source_dir texmf_dir "" nl2 h3
  obtain ⟨g4, e4, nl4, fr4⟩ := iter_files_install_copy u habs
    (m.sty_list ++ m.cls_list) m.cwl_source_dir texstudio_dir ".cwl" nl3 h4
  refine ⟨g4, ?_, nl4, ?_⟩
  · simp only [iterAll, e1, e2, e3, e4]
  · intro q hq
    rw [allDests] at hq
    simp only [List.mem_append] at hq
    push_neg at hq
    obtain ⟨⟨⟨hq1, hq2⟩, hq3⟩, hq4⟩ := hq
    rw [fr4 q hq4, fr3 q hq3, fr2 q hq2, fr1 q hq1]

theorem iterAll_uninstall (s : Bool) (root : String) (m : Manifest)
    (texmf_dir texstudio_dir : String) (fs : FS) :
    ∃ fs1, iterAll (Args.mk false true s) root m texmf_dir texstudio_dir fs =
        Except.ok fs1 ∧
      fs1.dirs = fs.dirs ∧
      (∀ q, q ∉ allDests root m texmf_dir texstudio_dir →
        lookupEntry fs1.entries q = lookupEntry fs.entries q) ∧
      (fs.noLinks = true → fs1.noLinks = true ∧
        ∀ q ∈ allDests root m texmf_dir texstudio_dir,
          lookupEntry fs1.entries q = none) := by
  obtain ⟨g1, e1, d1, a1, f1, c1⟩ := iter_files_uninstall s root m.sty_list
    (some m.sty_source_dir) texmf_dir ".sty" fs
  obtain ⟨g2, e2, d2, a2, f2, c2⟩ := iter_files_uninstall s root m.cls_list
    (some m.cls_source_dir) texmf_dir ".cls" g1
  obtain ⟨g3, e3, d3, a3, f3, c3⟩ := iter_files_uninstall s root m.res_list
    m.res_source_dir texmf_dir "" g2
  obtain ⟨g4, e4, d4, a4, f4, c4⟩ := iter_files_uninstall s root
    (m.sty_list ++ m.cls_list) m.cwl_source_dir texstudio_dir ".cwl" g3
  refine ⟨g4, ?_, ?_, ?_, ?_⟩
  · simp only [iterAll, e1, e2, e3, e4]
  · rw [d4, d3, d2, d1]
  · intro q hq
    rw [allDests] at hq
    simp only [List.mem_append] at hq
    push_neg at hq
    obtain ⟨⟨⟨hq1, hq2⟩, hq3⟩, hq4⟩ := hq
    rw [f4 q hq4, f3 q hq3, f2 q hq2, f1 q hq1]
  · intro hnl
    obtain ⟨nl1, cl1⟩ := c1 hnl
    obtain ⟨nl2, cl2⟩ := c2 nl1
    obtain ⟨nl3, cl3⟩ := c3 nl2
    obtain ⟨nl4, cl4⟩ := c4 nl3
    refine ⟨nl4, ?_⟩
    intro q hq
    have step : ∀ {gA gB : FS},
        (∀ r, lookupEntry gB.entries r = lookupEntry gA.entries r ∨
          lookupEntry gB.entries r = none) →
        lookupEntry gA.entries q = none → lookupEntry gB.entries q = none := by
      intro gA gB hAB hA
      rcases hAB q with h | h
      · rw [h, hA]
      · exact h
    rw [allDests] at hq
    simp only [List.mem_append] at hq
    rcases hq with ((hq1 | hq2) | hq3) | hq4
    · exact step a4 (step a3 (step a2 (cl1 q hq1)))
    · exact step a4 (step a3 (cl2 q hq2))
    · exact step a4 (cl3 q hq3)
    · exact cl4 q hq4

theorem target_dirs_linux (user_home bundle_name : String) :
    target_dirs "linux" user_home bundle_name =
      some (joinAll user_home ["texmf", "tex", "latex", bundle_name],
        joinAll user_home [".config", "texstudio", "completion", "user"]) := rfl

theorem target_dirs_windows (user_home bundle_name : String) :
    target_dirs "windows" user_home bundle_name =
      some (joinAll user_home ["AppData", "Roaming", "MiKTeX", "latex", bundle_name],
        joinAll user_home ["AppData", "Roaming", "texstudio", "completion", "user"]) := rfl

theorem stageA_mkCfg (name : String) (sty cls res : List String) (root : String)
    (fs : FS) (log : List String)
    (hsty : fs.isdir (pathJoin root "texmf") = true)
    (hres : fs.isdir (pathJoin root "resources") = false)
    (hcwl : fs.isdir (pathJoin root "autocompletion") = false) :
    stageA (mkCfg name sty cls res) root fs log =
      Except.ok (Manifest.mk name sty cls [] (pathJoin root "texmf")
          (pathJoin root "texmf") none none,
        if res = [] then log else log ++ [resWarning]) := by
  simp [stageA, mkCfg, get_value, findKey, typeMatches, asStr, asList,
    hsty, hres, hcwl]

theorem processEntry_args (u s : Bool) (root d t sfx : String) (fs : FS)
    (n : String) :
    processEntry (Args.mk true u s) root d t sfx fs n =
      processEntry (Args.mk true false s) root d t sfx fs n := rfl

theorem iterLoop_args (u s : Bool) (root d t sfx : String) :
    ∀ (files : List String) (fs : FS),
    iterLoop (Args.mk true u s) root d t sfx files fs =
      iterLoop (Args.mk true false s) root d t sfx files fs := by
  intro files
  induction files with
  | nil => intro fs; rfl
  | cons n rest ih =>
    intro fs
    simp only [iterLoop, processEntry_args u s]
    cases h : processEntry (Args.mk true false s) root d t sfx fs n with
    | error e => rfl
    | ok fs1 => exact ih fs1

theorem iter_files_args (u s : Bool) (root : String) (files : List String)
    (from_dir : Option String) (to_dir suffix : String) (fs : FS) :
    iter_files (Args.mk true u s) root files from_dir to_dir suffix fs =
      iter_files (Args.mk true false s) root files from_dir to_dir suffix fs := by
  cases from_dir with
  | none => rfl
  | some dd =>
    simp only [iter_files]
    by_cases hlen : files.length = 0
    · rw [if_pos hlen, if_pos hlen]
    · rw [if_neg hlen, if_neg hlen, iterLoop_args]

theorem iterAll_args (u s : Bool) (root : String) (m : Manifest)
    (texmf_dir texstudio_dir : String) (fs : FS) :
    iterAll (Args.mk true u s) root m texmf_dir texstudio_dir fs =
      iterAll (Args.mk true false s) root m texmf_dir texstudio_dir fs := by
  simp only [iterAll, iter_files_args u s]

/-- C1: a manifest with a non-empty sty list and a missing sty-dir exits
with code 1 before creating any directory, but a manifest with a non-empty
cls list and a missing cls-dir only logs the same error message and then
continues: the run creates both destination directories and exits with
code 0, because the source's cls check (lines 218-219) has no exit(1). -/
theorem cls_dir_missing_continues :
    runScript (Args.mk true false false)
        [("name", JVal.jstr "x"), ("sty", JVal.jlist ["a"])] "/r" "linux" "/h" true
        (St.mk (FS.mk [] []) []) =
      RunResult.mk 1 (St.mk (FS.mk [] []) ["Must be a directory: /r/texmf"]) ∧
    runScript (Args.mk true false false)
        [("name", JVal.jstr "x"), ("cls", JVal.jlist ["a"])] "/r" "linux" "/h" true
        (St.mk (FS.mk [] []) []) =
      RunResult.mk 0 (St.mk
        (FS.mk [] ["/h/texmf/tex/latex/x", "/h/.config/texstudio/completion/user"])
        ["Must be a directory: /r/texmf"]) := ⟨rfl, rfl⟩

/-- C2: the platform identifier the code maps to the AppData destinations is
the string "windows", but Python's sys.platform on Windows is "win32",
which the dispatch does not recognize: a run on the identifier "win32"
reports an unknown platform and exits 1 with nothing created. -/
theorem win32_unknown_platform :
    (∀ user_home bundle_name : String,
      target_dirs "win32" user_home bundle_name = none) ∧
    runScript (Args.mk true false false) (mkCfg "x" [] [] []) "/r" "win32" "/h" true
        (St.mk (FS.mk [] []) []) =
      RunResult.mk 1 (St.mk (FS.mk [] []) ["Unknown platform:win32"]) :=
  ⟨fun _ _ => rfl, rfl⟩

/-- C3 (counterexample): on the platform string "windows" in symlink mode
without admin rights the run does exit 1 before installing any file, but
both destination directories have already been created when it aborts,
because os.makedirs (line 282-283) runs before the admin check (line 290):
the claim's "before any filesystem mutation, in particular before any
destination directory is created" is false. -/
theorem admin_abort_creates_dirs_first :
    runScript (Args.mk true false true) (mkCfg "x" [] [] []) "/r" "windows" "/h"
        false (St.mk (FS.mk [] []) []) =
      RunResult.mk 1 (St.mk
        (FS.mk [] ["/h/AppData/Roaming/MiKTeX/latex/x",
          "/h/AppData/Roaming/texstudio/completion/user"])
        ["Admin privileges are required to create symlinks on windows."]) := rfl

/-- C3 (amended): in symlink mode on the platform string "windows" without
admin rights, every run whose manifest stage succeeds exits 1 without
touching any file entry, but only after the two destination directories
have been created. -/
theorem admin_abort_after_mkdirs (args : Args) (config : List (String × JVal))
    (root user_home : String) (st0 : St) (m : Manifest) (log1 : List String)
    (hflags : (args.install || args.uninstall) = true)
    (hsym : args.symlink = true)
    (hstage : stageA config root st0.fs st0.log = Except.ok (m, log1)) :
    runScript args config root "windows" user_home false st0 =
      RunResult.mk 1 (St.mk
        ((st0.fs.makedirs (joinAll user_home
            ["AppData", "Roaming", "MiKTeX", "latex", m.bundle_name])).makedirs
          (joinAll user_home ["AppData", "Roaming", "texstudio", "completion", "user"]))
        (log1 ++ ["Admin privileges are required to create symlinks on windows."])) ∧
    ((st0.fs.makedirs (joinAll user_home
        ["AppData", "Roaming", "MiKTeX", "latex", m.bundle_name])).makedirs
      (joinAll user_home
        ["AppData", "Roaming", "texstudio", "completion", "user"])).entries =
      st0.fs.entries := by
  constructor
  · simp [runScript, hflags, hstage, target_dirs_windows, hsym]
  · rw [makedirs_entries, makedirs_entries]

/-- Witness for the amended C3 theorem at a concrete run. -/
theorem admin_abort_after_mkdirs_witness :
    runScript (Args.mk true false true) (mkCfg "y" [] [] []) "/q" "windows" "/u"
        false (St.mk (FS.mk [("/u/f.txt", Entry.file "keep")] []) []) =
      RunResult.mk 1 (St.mk
        (FS.mk [("/u/f.txt", Entry.file "keep")]
          ["/u/AppData/Roaming/MiKTeX/latex/y",
            "/u/AppData/Roaming/texstudio/completion/user"])
        ["Admin privileges are required to create symlinks on windows."]) :=
  (admin_abort_after_mkdirs (Args.mk true false true) (mkCfg "y" [] [] []) "/q" "/u"
    (St.mk (FS.mk [("/u/f.txt", Entry.file "keep")] []) [])
    (Manifest.mk "y" [] [] [] "/q/texmf" "/q/texmf" none none) []
    rfl rfl rfl).1

/-- C4 (counterexample): a dangling symbolic link at the destination is not
an os.path.isfile, so symlink-mode install_file does not delete it, and
os.symlink then fails with FileExistsError instead of replacing it. -/
theorem dangling_link_dest_errors :
    FS.isfile (FS.mk [("/d/a.sty", Entry.link "/nowhere")] []) "/d/a.sty" = false ∧
    install_file true "/r" (FS.mk [("/d/a.sty", Entry.link "/nowhere")] [])
        "/s/a.sty" "/d/a.sty" = Except.error "FileExistsError" := ⟨rfl, rfl⟩

/-- C4 (amended): symlink-mode install_file deletes the destination and
creates a fresh link to the resolved source exactly when the destination
resolves to a regular file; a dangling symbolic link at the destination is
not deleted, and the subsequent link creation fails with FileExistsError. -/
theorem symlink_install_replaces_file_only (root : String) (fs : FS)
    (from_file to_file : String) :
    (fs.isfile (resolve_full_path root to_file) = true →
      install_file true root fs from_file to_file = Except.ok
        ((fs.removeFile (resolve_full_path root to_file)).writeEntry
          (resolve_full_path root to_file)
          (Entry.link (resolve_full_path root from_file)))) ∧
    (∀ t, lookupEntry fs.entries (resolve_full_path root to_file) =
        some (Entry.link t) →
      fs.isfile (resolve_full_path root to_file) = false →
      install_file true root fs from_file to_file =
        Except.error "FileExistsError") := by
  constructor
  · intro h
    unfold install_file install_file_symlink
    simp only [if_true]
    rw [if_pos h, removeFile_entries, lookup_removeKey, if_pos rfl]
  · intro t ht h
    unfold install_file install_file_symlink
    simp only [if_true]
    rw [if_neg (by rw [h]; exact Bool.false_ne_true), ht]

/-- Witness for the amended C4 theorem: a regular file at the destination is
replaced by a link, a dangling link makes the call fail. -/
theorem symlink_install_replaces_file_only_witness :
    install_file true "/r" (FS.mk [("/d/b.sty", Entry.file "old")] [])
        "/s/b.sty" "/d/b.sty" =
      Except.ok (FS.mk [("/d/b.sty", Entry.link "/s/b.sty")] []) ∧
    install_file true "/r" (FS.mk [("/d/c.sty", Entry.link "/gone")] [])
        "/s/c.sty" "/d/c.sty" = Except.error "FileExistsError" :=
  ⟨(symlink_install_replaces_file_only "/r" (FS.mk [("/d/b.sty", Entry.file "old")] [])
      "/s/b.sty" "/d/b.sty").1 rfl,
   (symlink_install_replaces_file_only "/r" (FS.mk [("/d/c.sty", Entry.link "/gone")] [])
      "/s/c.sty" "/d/c.sty").2 "/gone" rfl rfl⟩

/-- C5 (counterexample): the completion directory is missing (no
autocompletion directory exists) and the completion category is live (the
sty list is non-empty), yet the run prints no warning at all: the final log
is empty.  Only a missing resource directory warns; a missing completion
directory is downgraded silently (source line 245-246). -/
theorem cwl_dir_missing_no_warning :
    runScript (Args.mk true false false) (mkCfg "x" ["foo"] [] []) "/r" "linux" "/h"
        true (St.mk (FS.mk [("/r/texmf/foo.sty", Entry.file "S")] ["/r/texmf"]) []) =
      RunResult.mk 0 (St.mk
        (FS.mk [("/h/texmf/tex/latex/x/foo.sty", Entry.file "S"),
            ("/r/texmf/foo.sty", Entry.file "S")]
          ["/r/texmf", "/h/texmf/tex/latex/x", "/h/.config/texstudio/completion/user"])
        []) := by decide

/-- C5 (amended): with the resource and completion source directories both
missing, an install run downgrades both categories, touches no path outside
the sty and cls destinations, exits 0, and logs exactly one warning, for
the resource category when its list is non-empty; the missing completion
directory produces no warning. -/
theorem optional_dirs_downgrade_install (name : String) (sty cls res : List String)
    (root user_home : String) (st0 : St)
    (habs : isabs root = true)
    (hnl : st0.fs.noLinks = true)
    (hsty : st0.fs.isdir (pathJoin root "texmf") = true)
    (hres : st0.fs.isdir (pathJoin root "resources") = false)
    (hcwl : st0.fs.isdir (pathJoin root "autocompletion") = false)
    (hsc1 : noSelfCopy root (pathJoin root "texmf")
      (joinAll user_home ["texmf", "tex", "latex", name]) ".sty" sty)
    (hsc2 : noSelfCopy root (pathJoin root "texmf")
      (joinAll user_home ["texmf", "tex", "latex", name]) ".cls" cls) :
    ∃ fsF,
      runScript (Args.mk true false false) (mkCfg name sty cls res) root "linux"
          user_home true st0 =
        RunResult.mk 0 (St.mk fsF
          (if res = [] then st0.log else st0.log ++ [resWarning])) ∧
      ∀ p, p ∉ sty.map (entryPath root
            (joinAll user_home ["texmf", "tex", "latex", name]) ".sty") →
          p ∉ cls.map (entryPath root
            (joinAll user_home ["texmf", "tex", "latex", name]) ".cls") →
        lookupEntry fsF.entries p = lookupEntry st0.fs.entries p := by
  have hstage := stageA_mkCfg name sty cls res root st0.fs st0.log hsty hres hcwl
  have hnl2 : (((st0.fs.makedirs (joinAll user_home
      ["texmf", "tex", "latex", name])).makedirs
      (joinAll user_home [".config", "texstudio", "completion", "user"]))).noLinks = true :=
    noLinks_makedirs (noLinks_makedirs hnl _) _
  obtain ⟨fs1, e1, nl1, fr1⟩ := iterAll_install_copy false habs
    (Manifest.mk name sty cls [] (pathJoin root "texmf") (pathJoin root "texmf")
      none none)
    (joinAll user_home ["texmf", "tex", "latex", name])
    (joinAll user_home [".config", "texstudio", "completion", "user"])
    hnl2 hsc1 hsc2 (fun dd hd => by cases hd) (fun dd hd => by cases hd)
  refine ⟨fs1, ?_, ?_⟩
  · simp [runScript, hstage, target_dirs_linux, e1]
  · intro p hp1 hp2
    have hp : p ∉ allDests root
        (Manifest.mk name sty cls [] (pathJoin root "texmf") (pathJoin root "texmf")
          none none)
        (joinAll user_home ["texmf", "tex", "latex", name])
        (joinAll user_home [".config", "texstudio", "completion", "user"]) := by
      simp [allDests, catDests]
      constructor
      · intro a ha haq
        exact hp1 (List.mem_map.mpr ⟨a, ha, haq⟩)
      · intro a ha haq
        exact hp2 (List.mem_map.mpr ⟨a, ha, haq⟩)
    rw [fr1 p hp, makedirs_entries, makedirs_entries]

/-- Witness for the amended C5 theorem: the spec scenario, a manifest
listing a resource with no resources directory present. -/
theorem optional_dirs_downgrade_install_witness :
    ∃ fsF,
      runScript (Args.mk true false false) (mkCfg "mypkg" ["foo"] [] ["logo.png"])
          "/r" "linux" "/h" true
          (St.mk (FS.mk [("/r/texmf/foo.sty", Entry.file "S")] ["/r/texmf"]) []) =
        RunResult.mk 0 (St.mk fsF
          (if (["logo.png"] : List String) = [] then ([] : List String)
            else [] ++ [resWarning])) ∧
      ∀ p, p ∉ (["foo"] : List String).map (entryPath "/r"
            (joinAll "/h" ["texmf", "tex", "latex", "mypkg"]) ".sty") →
          p ∉ ([] : List String).map (entryPath "/r"
            (joinAll "/h" ["texmf", "tex", "latex", "mypkg"]) ".cls") →
        lookupEntry fsF.entries p =
          lookupEntry [("/r/texmf/foo.sty", Entry.file "S")] p :=
  optional_dirs_downgrade_install "mypkg" ["foo"] [] ["logo.png"] "/r" "/h"
    (St.mk (FS.mk [("/r/texmf/foo.sty", Entry.file "S")] ["/r/texmf"]) [])
    rfl rfl rfl rfl rfl (by decide) (by decide)

/-- C6 (counterexample): a file that exists at a listed destination before
the install is not preserved by install-then-uninstall.  Here the listed
source file is absent, so the install skips the entry and leaves the
pre-existing destination file alone, but the uninstall run still deletes
it: the final state has lost a file that predates the install. -/
theorem uninstall_deletes_preexisting_listed_file :
    lookupEntry [("/h/texmf/tex/latex/x/foo.sty", Entry.file "old")]
        "/h/texmf/tex/latex/x/foo.sty" = some (Entry.file "old") ∧
    runScript (Args.mk false true false) (mkCfg "x" ["foo"] [] []) "/r" "linux" "/h"
        true
        ((runScript (Args.mk true false false) (mkCfg "x" ["foo"] [] []) "/r" "linux"
          "/h" true
          (St.mk (FS.mk [("/h/texmf/tex/latex/x/foo.sty", Entry.file "old")]
            ["/r/texmf"]) [])).st) =
      RunResult.mk 0 (St.mk
        (FS.mk [] ["/r/texmf", "/h/texmf/tex/latex/x",
          "/h/.config/texstudio/completion/user"])
        []) := ⟨rfl, by decide⟩

/-- C6 (amended): in copy mode over a link-free filesystem, running the four
category iterations in install mode and then in uninstall mode with the
same manifest leaves every path outside the manifest's destination set
exactly as it was, and leaves every destination path of the manifest empty:
files the install added are removed, but so is any regular file that was
already sitting at a listed destination path, so only the complement of the
destination set is restored to its pre-install state. -/
theorem install_uninstall_roundtrip (root : String) (habs : isabs root = true)
    (m : Manifest) (texmf_dir texstudio_dir : String) (fs : FS)
    (hnl : fs.noLinks = true)
    (h1 : noSelfCopy root m.sty_source_dir texmf_dir ".sty" m.sty_list)
    (h2 : noSelfCopy root m.cls_source_dir texmf_dir ".cls" m.cls_list)
    (h3 : ∀ dd, m.res_source_dir = some dd →
      noSelfCopy root dd texmf_dir "" m.res_list)
    (h4 : ∀ dd, m.cwl_source_dir = some dd →
      noSelfCopy root dd texstudio_dir ".cwl" (m.sty_list ++ m.cls_list)) :
    ∃ fs1 fs2,
      iterAll (Args.mk true false false) root m texmf_dir texstudio_dir fs =
        Except.ok fs1 ∧
      iterAll (Args.mk false true false) root m texmf_dir texstudio_dir fs1 =
        Except.ok fs2 ∧
      (∀ p, p ∉ allDests root m texmf_dir texstudio_dir →
        FS.lookup fs2 p = FS.lookup fs p) ∧
      (∀ p, p ∈ allDests root m texmf_dir texstudio_dir →
        FS.lookup fs2 p = none) := by
  obtain ⟨fs1, e1, nl1, fr1⟩ :=
    iterAll_install_copy false habs m texmf_dir texstudio_dir hnl h1 h2 h3 h4
  obtain ⟨fs2, e2, d2, fr2, c2⟩ :=
    iterAll_uninstall false root m texmf_dir texstudio_dir fs1
  obtain ⟨nl2, cl2⟩ := c2 nl1
  exact ⟨fs1, fs2, e1, e2, fun p hp => (fr2 p hp).trans (fr1 p hp),
    fun p hp => cl2 p hp⟩

/-- Witness for the amended C6 theorem at a concrete manifest and state. -/
theorem install_uninstall_roundtrip_witness :
    ∃ fs1 fs2,
      iterAll (Args.mk true false false) "/r"
          (Manifest.mk "x" ["foo"] [] [] "/r/texmf" "/r/texmf" none none)
          "/h/tex" "/h/ts"
          (FS.mk [("/r/texmf/foo.sty", Entry.file "S")] ["/r/texmf"]) =
        Except.ok fs1 ∧
      iterAll (Args.mk false true false) "/r"
          (Manifest.mk "x" ["foo"] [] [] "/r/texmf" "/r/texmf" none none)
          "/h/tex" "/h/ts" fs1 = Except.ok fs2 ∧
      (∀ p, p ∉ allDests "/r"
          (Manifest.mk "x" ["foo"] [] [] "/r/texmf" "/r/texmf" none none)
          "/h/tex" "/h/ts" →
        FS.lookup fs2 p =
          FS.lookup (FS.mk [("/r/texmf/foo.sty", Entry.file "S")] ["/r/texmf"]) p) ∧
      (∀ p, p ∈ allDests "/r"
          (Manifest.mk "x" ["foo"] [] [] "/r/texmf" "/r/texmf" none none)
          "/h/tex" "/h/ts" →
        FS.lookup fs2 p = none) :=
  install_uninstall_roundtrip "/r" rfl
    (Manifest.mk "x" ["foo"] [] [] "/r/texmf" "/r/texmf" none none)
    "/h/tex" "/h/ts"
    (FS.mk [("/r/texmf/foo.sty", Entry.file "S")] ["/r/texmf"])
    rfl (by decide) (by decide)
    (fun dd hd => nomatch hd) (fun dd hd => nomatch hd)

/-- C7: on install, an entry whose computed source path is not a regular
file is skipped with the whole state, the destination path included, left
untouched: the loop body returns the filesystem unchanged. -/
theorem install_skips_missing_source (args : Args)
    (root from_dir to_dir suffix : String) (fs : FS) (name : String)
    (hinst : args.install = true)
    (hmiss : fs.isfile (entryPath root from_dir suffix name) = false) :
    processEntry args root from_dir to_dir suffix fs name = Except.ok fs := by
  unfold processEntry
  simp [hinst, hmiss]

/-- Witness for the C7 theorem at a concrete entry. -/
theorem install_skips_missing_source_witness :
    processEntry (Args.mk true false false) "/r" "/r/texmf" "/h/tex" ".sty"
        (FS.mk [("/h/tex/foo.sty", Entry.file "keep")] []) "foo" =
      Except.ok (FS.mk [("/h/tex/foo.sty", Entry.file "keep")] []) :=
  install_skips_missing_source (Args.mk true false false) "/r" "/r/texmf" "/h/tex"
    ".sty" (FS.mk [("/h/tex/foo.sty", Entry.file "keep")] []) "foo" rfl rfl

/-- C8: a manifest without the name key makes every run (install or
uninstall, any platform, any state) exit 1 immediately with the filesystem,
entries and directories alike, exactly as it was. -/
theorem missing_name_aborts_without_writes (args : Args)
    (config : List (String × JVal)) (root platform user_home : String)
    (is_admin : Bool) (st0 : St)
    (hflags : (args.install || args.uninstall) = true)
    (hname : findKey config "name" = none) :
    runScript args config root platform user_home is_admin st0 =
      RunResult.mk 1 (St.mk st0.fs (st0.log ++ ["Missing required key: 'name'"])) := by
  unfold runScript
  rw [if_neg (by simp [hflags])]
  simp [stageA, get_value, hname]

/-- Witness for the C8 theorem at a concrete empty manifest. -/
theorem missing_name_aborts_without_writes_witness :
    runScript (Args.mk true false false) [] "/r" "linux" "/h" true
        (St.mk (FS.mk [("/h/a.txt", Entry.file "A")] ["/d"]) []) =
      RunResult.mk 1 (St.mk (FS.mk [("/h/a.txt", Entry.file "A")] ["/d"])
        ["Missing required key: 'name'"]) :=
  missing_name_aborts_without_writes (Args.mk true false false) [] "/r" "linux"
    "/h" true (St.mk (FS.mk [("/h/a.txt", Entry.file "A")] ["/d"]) []) rfl rfl

/-- C9: supplying both the install and the uninstall flag runs exactly the
install behaviour: the whole pipeline is equal to the one with the
uninstall flag cleared, because every branch tests the install flag first. -/
theorem both_flags_mean_install (s : Bool) (config : List (String × JVal))
    (root platform user_home : String) (is_admin : Bool) (st0 : St) :
    runScript (Args.mk true true s) config root platform user_home is_admin st0 =
      runScript (Args.mk true false s) config root platform user_home is_admin st0 := by
  simp only [runScript, Bool.true_or, iterAll_args true s]

/-- C10 (counterexample): on an uninstall run the class category still
removes destination files although its source directory does not exist:
the missing-directory message is logged, the run continues, and the
destination file a.cls is deleted, exit code 0. -/
theorem cls_missing_dir_still_uninstalls :
    runScript (Args.mk false true false)
        [("name", JVal.jstr "x"), ("cls", JVal.jlist ["a"])] "/r" "linux" "/h" true
        (St.mk (FS.mk [("/h/texmf/tex/latex/x/a.cls", Entry.file "C")] []) []) =
      RunResult.mk 0 (St.mk
        (FS.mk [] ["/h/texmf/tex/latex/x", "/h/.config/texstudio/completion/user"])
        ["Must be a directory: /r/texmf"]) := by decide

/-- C10 (amended): on an uninstall run, the categories downgraded because
their optional source directory is missing (resources and completion)
perform no removals: the run exits 0 and every path outside the sty and cls
destination sets, in particular every installed resource or completion
file, keeps exactly its entry. -/
theorem uninstall_skips_disabled_categories (name : String)
    (sty cls res : List String) (root user_home : String) (st0 : St)
    (hsty : st0.fs.isdir (pathJoin root "texmf") = true)
    (hres : st0.fs.isdir (pathJoin root "resources") = false)
    (hcwl : st0.fs.isdir (pathJoin root "autocompletion") = false) :
    ∃ fsF,
      runScript (Args.mk false true false) (mkCfg name sty cls res) root "linux"
          user_home true st0 =
        RunResult.mk 0 (St.mk fsF
          (if res = [] then st0.log else st0.log ++ [resWarning])) ∧
      ∀ p, p ∉ sty.map (entryPath root
            (joinAll user_home ["texmf", "tex", "latex", name]) ".sty") →
          p ∉ cls.map (entryPath root
            (joinAll user_home ["texmf", "tex", "latex", name]) ".cls") →
        lookupEntry fsF.entries p = lookupEntry st0.fs.entries p := by
  have hstage := stageA_mkCfg name sty cls res root st0.fs st0.log hsty hres hcwl
  obtain ⟨fs1, e1, d1, f1, c1⟩ := iterAll_uninstall false root
    (Manifest.mk name sty cls [] (pathJoin root "texmf") (pathJoin root "texmf")
      none none)
    (joinAll user_home ["texmf", "tex", "latex", name])
    (joinAll user_home [".config", "texstudio", "completion", "user"])
    ((st0.fs.makedirs (joinAll user_home ["texmf", "tex", "latex", name])).makedirs
      (joinAll user_home [".config", "texstudio", "completion", "user"]))
  refine ⟨fs1, ?_, ?_⟩
  · simp [runScript, hstage, target_dirs_linux, e1]
  · intro p hp1 hp2
    have hp : p ∉ allDests root
        (Manifest.mk name sty cls [] (pathJoin root "texmf") (pathJoin root "texmf")
          none none)
        (joinAll user_home ["texmf", "tex", "latex", name])
        (joinAll user_home [".config", "texstudio", "completion", "user"]) := by
      simp [allDests, catDests]
      constructor
      · intro a ha haq
        exact hp1 (List.mem_map.mpr ⟨a, ha, haq⟩)
      · intro a ha haq
        exact hp2 (List.mem_map.mpr ⟨a, ha, haq⟩)
    rw [f1 p hp, makedirs_entries, makedirs_entries]

/-- Witness for the amended C10 theorem: an installed resource file at its
destination survives the uninstall run that can no longer see the resource
source directory. -/
theorem uninstall_skips_disabled_categories_witness :
    ∃ fsF,
      runScript (Args.mk false true false) (mkCfg "mypkg" [] [] ["logo.png"]) "/r"
          "linux" "/h" true
          (St.mk (FS.mk [("/h/texmf/tex/latex/mypkg/logo.png", Entry.file "PNG")]
            ["/r/texmf"]) []) =
        RunResult.mk 0 (St.mk fsF
          (if (["logo.png"] : List String) = [] then ([] : List String)
            else [] ++ [resWarning])) ∧
      ∀ p, p ∉ ([] : List String).map (entryPath "/r"
            (joinAll "/h" ["texmf", "tex", "latex", "mypkg"]) ".sty") →
          p ∉ ([] : List String).map (entryPath "/r"
            (joinAll "/h" ["texmf", "tex", "latex", "mypkg"]) ".cls") →
        lookupEntry fsF.entries p =
          lookupEntry [("/h/texmf/tex/latex/mypkg/logo.png", Entry.file "PNG")] p :=
  uninstall_skips_disabled_categories "mypkg" [] [] ["logo.png"] "/r" "/h"
    (St.mk (FS.mk [("/h/texmf/tex/latex/mypkg/logo.png", Entry.file "PNG")]
      ["/r/texmf"]) [])
    rfl rfl rfl

end TexBundle
